import Mathlib

/-!
Verification development for the 4C4R cross-stream gRPC benchmark harness
(ai_inference/test/testGRPC4C4RPipelineCrossStream.cpp).

The embedding models:
* the decoded structure of an AI_Response message as probed via
  boost::property_tree (a message either fails to parse, or exposes the
  optional fields Type, latency and handle that the harness reads);
* the per-driver workload loop (function workload): the optional
  load_pipeline handshake, the run request construction, and the
  response read loop with its frame counting, latency accumulation and
  performance-report persistence;
* the final report arithmetic of main (finalize);
* the orchestrator thread partition of main (spawnPlan);
* a small-step interleaving machine for the unsynchronized updates of the
  global latency accumulators performed by concurrent reader threads.

Numeric conventions: C++ double and float values that the claims reason
about exactly are modelled as rationals; size_t / unsigned counters as
naturals (no overflow is reachable in the modelled quantities);
the int status code as an integer.  boost::property_tree accesses that
throw (read_json on malformed text, get without a default on a missing
key) are modelled as Except errors: in the real program these exceptions
escape the reader thread and terminate the process.
-/

namespace CrossStream

/-- Decoded content of an AI_Response message as seen through the
property-tree probes of the harness: either the JSON text fails to parse,
or it exposes an optional Type tag, an optional latency value and an
optional handle value. -/
inductive Msg where
  | malformed : Msg
  | fields (type : Option String) (latency : Option ℚ) (handle : Option ℕ) : Msg
deriving DecidableEq

/-- An AI_Response as consumed by the harness: a status code
(0 meaning success) and the message payload. -/
structure Response where
  status : ℤ
  msg : Msg
deriving DecidableEq

/-- Request target tag. -/
inductive Target where
  | load_pipeline : Target
  | run : Target
deriving DecidableEq

/-- An AI_Request as built by the harness; unset protobuf fields are
modelled as none / default values. -/
structure Request where
  target : Target
  pipelineConfig : Option String := none
  suggestedWeight : ℕ := 0
  streamNum : ℕ := 0
  jobHandle : Option ℕ := none
  mediaURIs : List String := []
deriving DecidableEq

/-- The environment of one repeat iteration: the reply the server would
give to a load_pipeline handshake, and the stream of replies drained by
the read loop until the stream closes. -/
structure Env where
  handshake : Response
  loop : List Response
deriving DecidableEq

/-- Reasons the reader code would throw: read_json on malformed text, or
a property-tree get without default on a missing key. -/
inductive Crash where
  | jsonParse : Crash
  | missingLatency : Crash
  | missingHandle : Crash
deriving DecidableEq

/-- Driver-visible mutable state of one workload call: the job_handle
local, the frameCnt counter, this driver's contributions to the global
latency sum/count accumulators, the requests written to the stream so
far, and the report files written. -/
structure DrvState where
  jobHandle : ℕ := 0
  frameCnt : ℕ := 0
  latSum : ℚ := 0
  latCnt : ℕ := 0
  sent : List Request := []
  reports : List String := []
deriving DecidableEq

/-- The load_pipeline handshake of one repeat (workload, warmup branch):
write the load_pipeline request, read one reply; on status 0 decode the
message (throwing on parse failure) and read its handle key (throwing if
absent), storing it into job_handle; on non-zero status proceed without
a handle. -/
def procHandshake (cfg : String) (sn : ℕ) (s : DrvState) (r : Response) :
    Except Crash DrvState :=
  let s' := { s with sent := s.sent ++
    [{ target := Target.load_pipeline, pipelineConfig := some cfg,
       suggestedWeight := 0, streamNum := sn }] }
  if r.status = 0 then
    match r.msg with
    | Msg.malformed => Except.error Crash.jsonParse
    | Msg.fields _ _ none => Except.error Crash.missingHandle
    | Msg.fields _ _ (some h) => Except.ok { s' with jobHandle := h }
  else Except.ok s'

/-- The run request of one repeat: carries the job handle when one is
held (job_handle > 0), otherwise the full pipeline configuration. -/
def runRequest (cfg : String) (sn : ℕ) (inputs : List String) (handle : ℕ) :
    Request :=
  if handle > 0 then
    { target := Target.run, suggestedWeight := 0, streamNum := sn,
      mediaURIs := inputs, jobHandle := some handle }
  else
    { target := Target.run, suggestedWeight := 0, streamNum := sn,
      mediaURIs := inputs, pipelineConfig := some cfg }

/-- Processing of one reply inside the read loop: on status 0 the message
is decoded (read_json throws on malformed text); a PerformanceData message
is written to the report file and skipped via continue (no frame counted);
otherwise the latency key is read (get without default throws if absent)
and added to the latency accumulators, and the frame counter advances.
A reply with non-zero status only advances the frame counter. -/
def procLoopResp (rf : String) (s : DrvState) (r : Response) :
    Except Crash DrvState :=
  if r.status = 0 then
    match r.msg with
    | Msg.malformed => Except.error Crash.jsonParse
    | Msg.fields ty lat _ =>
      if ty.getD "" = "PerformanceData" then
        Except.ok { s with reports := s.reports ++ [rf] }
      else
        match lat with
        | none => Except.error Crash.missingLatency
        | some l => Except.ok { s with
            latSum := s.latSum + l, latCnt := s.latCnt + 1,
            frameCnt := s.frameCnt + 1 }
  else Except.ok { s with frameCnt := s.frameCnt + 1 }

/-- One repeat iteration of workload: when warmup is on and no handle is
held yet, perform the load_pipeline handshake; then write the run request
and drain the response stream. -/
def runRepeat (cfg : String) (sn : ℕ) (inputs : List String) (wf : Bool)
    (rf : String) (s : DrvState) (e : Env) : Except Crash DrvState := do
  let s1 ← if wf = true ∧ s.jobHandle = 0 then
      procHandshake cfg sn s e.handshake
    else pure s
  let s2 := { s1 with
    sent := s1.sent ++ [runRequest cfg sn inputs s1.jobHandle] }
  e.loop.foldlM (procLoopResp rf) s2

/-- Construction parameters of one workload call (one driver thread). -/
structure DriverArgs where
  cfg : String
  media : List String
  repeats : ℕ
  threadId : ℕ
  streamNum : ℕ
  warmupFlag : Bool
  reportFileName : String
deriving DecidableEq

/-- The input list a driver sends with every run request: the media list
repeated repeats times, and that whole list repeated streamNum times. -/
def inputsOf (a : DriverArgs) : List String :=
  (List.replicate a.streamNum ((List.replicate a.repeats a.media).flatten)).flatten

/-- The whole workload call of one driver: pipeline_repeats repeat
iterations (one Env per iteration), starting from the default state
(job_handle = 0, empty counters). -/
def workload (a : DriverArgs) (envs : List Env) : Except Crash DrvState :=
  envs.foldlM
    (runRepeat a.cfg a.streamNum (inputsOf a) a.warmupFlag a.reportFileName)
    {}

/-- A reply recognized by the read loop as a performance-summary record:
status 0 and a message whose Type key decodes (with default empty string)
to PerformanceData. -/
def isPerfData (r : Response) : Bool :=
  r.status == 0 &&
    match r.msg with
    | Msg.malformed => false
    | Msg.fields ty _ _ => ty.getD "" == "PerformanceData"

/-- Number of frame-counted replies across all repeats of one driver:
every read-loop reply except performance-summary ones. -/
def framesOf (envs : List Env) : ℕ :=
  ((envs.map Env.loop).flatten).countP (fun r => !isPerfData r)

/-- The latency contribution of one reply: present exactly for status-0,
non-performance-summary replies whose message carries a decodable latency
field. -/
def latencyOf (r : Response) : Option ℚ :=
  if r.status = 0 then
    match r.msg with
    | Msg.fields ty (some l) _ =>
      if ty.getD "" = "PerformanceData" then none else some l
    | _ => none
  else none

/-- All latency contributions of one driver across its repeats, in read
order. -/
def latsOf (envs : List Env) : List ℚ :=
  ((envs.map Env.loop).flatten).filterMap latencyOf

/-- The final report printed by main. -/
structure GlobalReport where
  totalTime : ℚ
  totalFrames : ℕ
  mean : ℚ
  fps : ℚ
  latencyAve : ℚ
deriving DecidableEq

/-- The performance-check arithmetic at the end of main: totalTime and
totalFrames are accumulated over the per-thread records, mean is
totalTime over the number of per-thread entries, fps is
((totalFrames - pipeline_repeats) / totalStreamNum) / (mean / 1000), and
the average latency is the global latency sum over the global latency
count. -/
def finalize (gTotal : List ℚ) (gFrameCnt : List ℕ) (latSum : ℚ)
    (latCnt : ℕ) (pipelineRepeats totalStreamNum : ℕ) : GlobalReport :=
  let totalTime : ℚ := gTotal.foldl (· + ·) 0
  let totalFrames : ℕ := gFrameCnt.foldl (· + ·) 0
  let mean : ℚ := totalTime / (gTotal.length : ℚ)
  let fps : ℚ := (((totalFrames : ℚ) - (pipelineRepeats : ℚ)) /
      (totalStreamNum : ℚ)) / (mean / 1000)
  ⟨totalTime, totalFrames, mean, fps, latSum / (latCnt : ℚ)⟩

/-- Decimal string of a natural number, modelling std::to_string. -/
def decStr (n : ℕ) : String :=
  if n = 0 then "0"
  else String.mk (((Nat.digits 10 n).reverse).map Nat.digitChar)

/-- Report file name of the i-th primary-group driver. -/
def reportName (i : ℕ) : String :=
  "performance_data_" ++ decStr i ++ ".json"

/-- One spawned driver thread as configured by main: which configuration
text it receives (primary contents or the additional one), its per-thread
stream count, the loop index passed as thread id, and its report file
name. -/
structure DriverSpec where
  primaryCfg : Bool
  streamNum : ℕ
  threadId : ℕ
  reportFileName : String
deriving DecidableEq

/-- The thread partition of main: after the sanity check
totalStreamNum < crossStreamNum fails the process (modelled as none),
main spawns totalStreamNum / crossStreamNum primary drivers with
crossStreamNum streams each and report names indexed by thread id,
then totalStreamNum % crossStreamNum secondary drivers with 1 stream
each and the fixed additional report name. -/
def spawnPlan (totalStreamNum crossStreamNum : ℕ) :
    Option (List DriverSpec) :=
  if totalStreamNum < crossStreamNum then none
  else
    some ((List.range (totalStreamNum / crossStreamNum)).map
            (fun i => ⟨true, crossStreamNum, i, reportName i⟩) ++
          (List.range (totalStreamNum % crossStreamNum)).map
            (fun i => ⟨false, 1, i, "performance_data_additional.json"⟩))

/-- The shared global latency accumulators (g_latency_sum,
g_latency_count). -/
structure RaceShared where
  latSum : ℚ
  latCnt : ℤ
deriving DecidableEq

/-- One reader thread about to perform the two unsynchronized updates
g_latency_sum += v; ++g_latency_count, decomposed into their atomic
loads and stores: pc 0 loads the sum, pc 1 stores sum + v, pc 2 loads
the count, pc 3 stores count + 1, pc 4 is done.  The source performs
these accesses without holding g_mutex. -/
structure RaceThread where
  v : ℚ
  pc : ℕ := 0
  regS : ℚ := 0
  regC : ℤ := 0
deriving DecidableEq

/-- One atomic machine step of one reader thread. -/
def raceStep (sh : RaceShared) (t : RaceThread) : RaceShared × RaceThread :=
  match t.pc with
  | 0 => (sh, { t with regS := sh.latSum, pc := 1 })
  | 1 => ({ sh with latSum := t.regS + t.v }, { t with pc := 2 })
  | 2 => (sh, { t with regC := sh.latCnt, pc := 3 })
  | 3 => ({ sh with latCnt := t.regC + 1 }, { t with pc := 4 })
  | _ => (sh, t)

/-- Run one scheduled step: thread i (if it exists) performs its next
atomic action on the shared accumulators. -/
def schedStep (cfg : RaceShared × List RaceThread) (i : ℕ) :
    RaceShared × List RaceThread :=
  match cfg.2[i]? with
  | none => cfg
  | some t =>
    let p := raceStep cfg.1 t
    (p.1, cfg.2.set i p.2)

/-- Run a whole interleaving (a list of thread indices). -/
def runSched (cfg : RaceShared × List RaceThread) (sched : List ℕ) :
    RaceShared × List RaceThread :=
  sched.foldl schedStep cfg

/-- The run request sent while a non-zero handle is held. -/
def runWithHandle (sn : ℕ) (inputs : List String) (hdl : ℕ) : Request :=
  { target := Target.run, streamNum := sn, mediaURIs := inputs,
    jobHandle := some hdl }

/-- The run request sent while no handle is held: carries the full
configuration. -/
def runWithConfig (cfg : String) (sn : ℕ) (inputs : List String) : Request :=
  { target := Target.run, pipelineConfig := some cfg, streamNum := sn,
    mediaURIs := inputs }

/-- The load_pipeline request. -/
def loadRequest (cfg : String) (sn : ℕ) : Request :=
  { target := Target.load_pipeline, pipelineConfig := some cfg,
    streamNum := sn }

/-- Concrete driver arguments used to exercise the warmup path. -/
def wArgs : DriverArgs := ⟨"cfg", ["m"], 1, 0, 1, true, "r"⟩

/-- The same driver arguments with warmup disabled. -/
def wArgsNoWarm : DriverArgs := ⟨"cfg", ["m"], 1, 0, 1, false, "r"⟩

/-- A repeat environment whose handshake succeeds with handle 42 and
whose stream closes immediately. -/
def wEnvHandle : Env := ⟨⟨0, Msg.fields none none (some 42)⟩, []⟩

/-- A further repeat environment (its handshake reply, with handle 9,
must never be consumed once a handle is held). -/
def wEnvSecond : Env := ⟨⟨0, Msg.fields none none (some 9)⟩, []⟩

/-- Driver state after a successful handshake followed by two
handle-carrying run requests. -/
def wReuseState : DrvState :=
  ⟨42, 0, 0, 0, [loadRequest "cfg" 1, runWithHandle 1 ["m"] 42,
    runWithHandle 1 ["m"] 42], []⟩

/-- One repeat whose handshake fails (status 1) and whose stream yields
one non-zero-status reply. -/
def wEnvsFail : List Env := [⟨⟨1, Msg.fields none none none⟩, [⟨2, Msg.malformed⟩]⟩]

/-- Driver state after one repeat with a failed handshake: the full
configuration was sent and one frame was counted. -/
def wFailState : DrvState :=
  ⟨0, 1, 0, 0, [loadRequest "cfg" 1, runWithConfig "cfg" 1 ["m"]], []⟩

/-- One repeat for the no-warmup driver: the handshake reply is never
consumed, the stream yields one non-zero-status reply. -/
def wEnvsNoWarm : List Env :=
  [⟨⟨0, Msg.fields none none none⟩, [⟨3, Msg.malformed⟩]⟩]

/-- Driver state after the no-warmup repeat. -/
def wNoWarmState : DrvState :=
  ⟨0, 1, 0, 0, [runWithConfig "cfg" 1 ["m"]], []⟩

/-- A one-driver run whose stream yields one failed frame (status 1) and
one successful frame with latency 5. -/
def wDrv : DriverArgs × List Env :=
  (⟨"c", [], 1, 0, 1, false, "r"⟩,
   [⟨⟨0, Msg.fields none none none⟩,
     [⟨1, Msg.malformed⟩, ⟨0, Msg.fields none (some 5) none⟩]⟩])

/-- Final state of that driver: 2 frames counted, latency sum 5 over
1 contribution. -/
def wDrvState : DrvState := ⟨0, 2, 5, 1, [runWithConfig "c" 1 []], []⟩

theorem runRequest_pos (cfg : String) (sn : ℕ) (inputs : List String)
    (hdl : ℕ) (h : hdl ≠ 0) :
    runRequest cfg sn inputs hdl = runWithHandle sn inputs hdl := by
  simp [runRequest, runWithHandle, Nat.pos_of_ne_zero h]

theorem runRequest_zero (cfg : String) (sn : ℕ) (inputs : List String) :
    runRequest cfg sn inputs 0 = runWithConfig cfg sn inputs := by
  simp [runRequest, runWithConfig]

theorem procLoopResp_ok_spec (rf : String) (s : DrvState) (r : Response)
    (s' : DrvState) (h : procLoopResp rf s r = Except.ok s') :
    s'.jobHandle = s.jobHandle ∧ s'.sent = s.sent ∧
    s'.frameCnt = s.frameCnt + (if isPerfData r then 0 else 1) ∧
    s'.latSum = s.latSum + ((latencyOf r).getD 0) ∧
    s'.latCnt = s.latCnt + (if (latencyOf r).isSome then 1 else 0) := by
  obtain ⟨st, msg⟩ := r
  by_cases h0 : st = 0
  · subst h0
    cases msg with
    | malformed => simp [procLoopResp] at h
    | fields ty lat hd =>
      by_cases hty : ty.getD "" = "PerformanceData"
      · simp [procLoopResp, hty, isPerfData, latencyOf] at h ⊢
        subst h
        cases lat <;> simp [hty]
      · cases lat with
        | none => simp [procLoopResp, hty] at h
        | some l =>
          simp [procLoopResp, hty, isPerfData, latencyOf] at h ⊢
          subst h
          simp [hty]
  · simp [procLoopResp, h0, isPerfData, latencyOf] at h ⊢
    subst h
    simp

theorem loopFold_ok_spec (rf : String) (rs : List Response) (s s' : DrvState)
    (h : rs.foldlM (procLoopResp rf) s = Except.ok s') :
    s'.jobHandle = s.jobHandle ∧ s'.sent = s.sent ∧
    s'.frameCnt = s.frameCnt + rs.countP (fun r => !isPerfData r) ∧
    s'.latSum = s.latSum + (rs.filterMap latencyOf).sum ∧
    s'.latCnt = s.latCnt + (rs.filterMap latencyOf).length := by
  induction rs generalizing s with
  | nil =>
    rw [List.foldlM_nil] at h
    cases h
    simp
  | cons r rs ih =>
    rw [List.foldlM_cons] at h
    cases hr : procLoopResp rf s r with
    | error e =>
      rw [hr] at h
      exact absurd h (by simp [Bind.bind, Except.bind])
    | ok s1 =>
      rw [hr] at h
      have h' : rs.foldlM (procLoopResp rf) s1 = Except.ok s' := h
      obtain ⟨i1, i2, i3, i4, i5⟩ := ih s1 h'
      obtain ⟨j1, j2, j3, j4, j5⟩ := procLoopResp_ok_spec rf s r s1 hr
      refine ⟨by rw [i1, j1], by rw [i2, j2], ?_, ?_, ?_⟩
      · rw [i3, j3, List.countP_cons]
        by_cases hp : isPerfData r <;> (simp [hp]; try omega)
      · rw [i4, j4, List.filterMap_cons]
        cases hl : latencyOf r <;> (simp [hl]; try ring)
      · rw [i5, j5, List.filterMap_cons]
        cases hl : latencyOf r <;> (simp [hl]; try omega)

theorem procHandshake_fail (cfg : String) (sn : ℕ) (s : DrvState)
    (r : Response) (h : r.status ≠ 0) :
    procHandshake cfg sn s r =
      Except.ok { s with sent := s.sent ++ [loadRequest cfg sn] } := by
  simp [procHandshake, h, loadRequest]

theorem procHandshake_success (cfg : String) (sn : ℕ) (s : DrvState)
    (r : Response) (ty : Option String) (lat : Option ℚ) (hdl : ℕ)
    (h0 : r.status = 0) (hm : r.msg = Msg.fields ty lat (some hdl)) :
    procHandshake cfg sn s r =
      Except.ok { s with jobHandle := hdl, sent := s.sent ++ [loadRequest cfg sn] } := by
  simp [procHandshake, h0, hm, loadRequest]

theorem procHandshake_ok_counters (cfg : String) (sn : ℕ) (s : DrvState)
    (r : Response) (s1 : DrvState)
    (h : procHandshake cfg sn s r = Except.ok s1) :
    s1.frameCnt = s.frameCnt ∧ s1.latSum = s.latSum ∧ s1.latCnt = s.latCnt := by
  obtain ⟨st, msg⟩ := r
  by_cases h0 : st = 0
  · subst h0
    cases msg with
    | malformed => simp [procHandshake] at h
    | fields ty lat hd =>
      cases hd with
      | none => simp [procHandshake] at h
      | some hdl =>
        simp [procHandshake] at h
        subst h
        simp
  · simp [procHandshake, h0] at h
    subst h
    simp

theorem runRepeat_noshake (cfg : String) (sn : ℕ) (inputs : List String)
    (wf : Bool) (rf : String) (s : DrvState) (e : Env) (s' : DrvState)
    (hc : ¬(wf = true ∧ s.jobHandle = 0))
    (h : runRepeat cfg sn inputs wf rf s e = Except.ok s') :
    s'.jobHandle = s.jobHandle ∧
    s'.sent = s.sent ++ [runRequest cfg sn inputs s.jobHandle] := by
  rw [runRepeat, if_neg hc, pure_bind] at h
  obtain ⟨i1, i2, -, -, -⟩ := loopFold_ok_spec rf e.loop _ s' h
  exact ⟨i1, i2⟩

theorem runRepeat_held (cfg : String) (sn : ℕ) (inputs : List String)
    (wf : Bool) (rf : String) (s : DrvState) (e : Env) (s' : DrvState)
    (hold : s.jobHandle ≠ 0)
    (h : runRepeat cfg sn inputs wf rf s e = Except.ok s') :
    s'.jobHandle = s.jobHandle ∧
    s'.sent = s.sent ++ [runWithHandle sn inputs s.jobHandle] := by
  have hc : ¬(wf = true ∧ s.jobHandle = 0) := by
    rintro ⟨-, h0⟩; exact hold h0
  obtain ⟨i1, i2⟩ := runRepeat_noshake cfg sn inputs wf rf s e s' hc h
  rw [runRequest_pos cfg sn inputs s.jobHandle hold] at i2
  exact ⟨i1, i2⟩

theorem runRepeat_failshake (cfg : String) (sn : ℕ) (inputs : List String)
    (rf : String) (s : DrvState) (e : Env) (s' : DrvState)
    (hz : s.jobHandle = 0) (hst : e.handshake.status ≠ 0)
    (h : runRepeat cfg sn inputs true rf s e = Except.ok s') :
    s'.jobHandle = 0 ∧
    s'.sent = s.sent ++ [loadRequest cfg sn, runWithConfig cfg sn inputs] := by
  rw [runRepeat, if_pos ⟨rfl, hz⟩, procHandshake_fail cfg sn s e.handshake hst] at h
  have h' : e.loop.foldlM (procLoopResp rf)
      { s with sent := (s.sent ++ [loadRequest cfg sn]) ++
          [runRequest cfg sn inputs s.jobHandle] } = Except.ok s' := h
  obtain ⟨i1, i2, -, -, -⟩ := loopFold_ok_spec rf e.loop _ s' h'
  rw [hz] at i2
  rw [runRequest_zero cfg sn inputs] at i2
  refine ⟨?_, ?_⟩
  · rw [i1]; exact hz
  · rw [i2]; simp

theorem runRepeat_okshake (cfg : String) (sn : ℕ) (inputs : List String)
    (rf : String) (s : DrvState) (e : Env) (s' : DrvState)
    (ty : Option String) (lat : Option ℚ) (hdl : ℕ)
    (hz : s.jobHandle = 0) (hst : e.handshake.status = 0)
    (hm : e.handshake.msg = Msg.fields ty lat (some hdl))
    (h : runRepeat cfg sn inputs true rf s e = Except.ok s') :
    s'.jobHandle = hdl ∧
    s'.sent = s.sent ++ [loadRequest cfg sn, runRequest cfg sn inputs hdl] := by
  rw [runRepeat, if_pos ⟨rfl, hz⟩,
    procHandshake_success cfg sn s e.handshake ty lat hdl hst hm] at h
  have h' : e.loop.foldlM (procLoopResp rf)
      { s with
        jobHandle := hdl,
        sent := (s.sent ++ [loadRequest cfg sn]) ++
          [runRequest cfg sn inputs hdl] } = Except.ok s' := h
  obtain ⟨i1, i2, -, -, -⟩ := loopFold_ok_spec rf e.loop _ s' h'
  refine ⟨by rw [i1], ?_⟩
  · rw [i2]; simp

theorem runRepeat_acc (cfg : String) (sn : ℕ) (inputs : List String)
    (wf : Bool) (rf : String) (s : DrvState) (e : Env) (s' : DrvState)
    (h : runRepeat cfg sn inputs wf rf s e = Except.ok s') :
    s'.frameCnt = s.frameCnt + e.loop.countP (fun r => !isPerfData r) ∧
    s'.latSum = s.latSum + (e.loop.filterMap latencyOf).sum ∧
    s'.latCnt = s.latCnt + (e.loop.filterMap latencyOf).length := by
  by_cases hc : (wf = true ∧ s.jobHandle = 0)
  · rw [runRepeat, if_pos hc] at h
    cases hh : procHandshake cfg sn s e.handshake with
    | error err =>
      rw [hh] at h
      exact absurd h (by simp [Bind.bind, Except.bind])
    | ok s1 =>
      rw [hh] at h
      have h' : e.loop.foldlM (procLoopResp rf)
          { s1 with sent := s1.sent ++ [runRequest cfg sn inputs s1.jobHandle] }
          = Except.ok s' := h
      obtain ⟨-, -, i3, i4, i5⟩ := loopFold_ok_spec rf e.loop _ s' h'
      obtain ⟨j1, j2, j3⟩ := procHandshake_ok_counters cfg sn s e.handshake s1 hh
      simp [i3, i4, i5, j1, j2, j3]
  · rw [runRepeat, if_neg hc, pure_bind] at h
    obtain ⟨-, -, i3, i4, i5⟩ := loopFold_ok_spec rf e.loop _ s' h
    exact ⟨i3, i4, i5⟩

theorem foldRepeats_acc (cfg : String) (sn : ℕ) (inputs : List String)
    (wf : Bool) (rf : String) (envs : List Env) (s s' : DrvState)
    (h : envs.foldlM (runRepeat cfg sn inputs wf rf) s = Except.ok s') :
    s'.frameCnt = s.frameCnt + framesOf envs ∧
    s'.latSum = s.latSum + (latsOf envs).sum ∧
    s'.latCnt = s.latCnt + (latsOf envs).length := by
  induction envs generalizing s with
  | nil =>
    rw [List.foldlM_nil] at h
    cases h
    simp [framesOf, latsOf]
  | cons e envs ih =>
    rw [List.foldlM_cons] at h
    cases he : runRepeat cfg sn inputs wf rf s e with
    | error err =>
      rw [he] at h
      exact absurd h (by simp [Bind.bind, Except.bind])
    | ok s1 =>
      rw [he] at h
      have h' : envs.foldlM (runRepeat cfg sn inputs wf rf) s1
          = Except.ok s' := h
      obtain ⟨i1, i2, i3⟩ := ih s1 h'
      obtain ⟨j1, j2, j3⟩ := runRepeat_acc cfg sn inputs wf rf s e s1 he
      refine ⟨?_, ?_, ?_⟩
      · rw [i1, j1]; simp [framesOf]; omega
      · rw [i2, j2]; simp [latsOf]; ring
      · rw [i3, j3]; simp [latsOf]; omega

theorem workload_acc (a : DriverArgs) (envs : List Env) (s' : DrvState)
    (h : workload a envs = Except.ok s') :
    s'.frameCnt = framesOf envs ∧ s'.latSum = (latsOf envs).sum ∧
    s'.latCnt = (latsOf envs).length := by
  obtain ⟨i1, i2, i3⟩ := foldRepeats_acc a.cfg a.streamNum (inputsOf a)
    a.warmupFlag a.reportFileName envs _ s' h
  exact ⟨by simpa using i1, by simpa using i2, by simpa using i3⟩

theorem foldRepeats_held (cfg : String) (sn : ℕ) (inputs : List String)
    (wf : Bool) (rf : String) (envs : List Env) (s s' : DrvState)
    (hold : s.jobHandle ≠ 0)
    (h : envs.foldlM (runRepeat cfg sn inputs wf rf) s = Except.ok s') :
    s'.jobHandle = s.jobHandle ∧
    s'.sent = s.sent ++
      List.replicate envs.length (runWithHandle sn inputs s.jobHandle) := by
  induction envs generalizing s with
  | nil =>
    rw [List.foldlM_nil] at h
    cases h
    simp
  | cons e envs ih =>
    rw [List.foldlM_cons] at h
    cases he : runRepeat cfg sn inputs wf rf s e with
    | error err =>
      rw [he] at h
      exact absurd h (by simp [Bind.bind, Except.bind])
    | ok s1 =>
      rw [he] at h
      have h' : envs.foldlM (runRepeat cfg sn inputs wf rf) s1
          = Except.ok s' := h
      obtain ⟨j1, j2⟩ := runRepeat_held cfg sn inputs wf rf s e s1 hold he
      have hold1 : s1.jobHandle ≠ 0 := by rw [j1]; exact hold
      obtain ⟨i1, i2⟩ := ih s1 hold1 h'
      refine ⟨by rw [i1, j1], ?_⟩
      rw [i2, j1, j2]
      simp [List.replicate_succ]

theorem foldRepeats_nowarm (cfg : String) (sn : ℕ) (inputs : List String)
    (rf : String) (envs : List Env) (s s' : DrvState)
    (hz : s.jobHandle = 0)
    (h : envs.foldlM (runRepeat cfg sn inputs false rf) s = Except.ok s') :
    s'.jobHandle = 0 ∧
    s'.sent = s.sent ++
      List.replicate envs.length (runWithConfig cfg sn inputs) := by
  induction envs generalizing s with
  | nil =>
    rw [List.foldlM_nil] at h
    cases h
    simpa using hz
  | cons e envs ih =>
    rw [List.foldlM_cons] at h
    cases he : runRepeat cfg sn inputs false rf s e with
    | error err =>
      rw [he] at h
      exact absurd h (by simp [Bind.bind, Except.bind])
    | ok s1 =>
      rw [he] at h
      have h' : envs.foldlM (runRepeat cfg sn inputs false rf) s1
          = Except.ok s' := h
      obtain ⟨j1, j2⟩ := runRepeat_noshake cfg sn inputs false rf s e s1
        (by simp) he
      have hz1 : s1.jobHandle = 0 := by rw [j1]; exact hz
      obtain ⟨i1, i2⟩ := ih s1 hz1 h'
      refine ⟨i1, ?_⟩
      rw [i2, j2, hz, runRequest_zero]
      simp [List.replicate_succ]

theorem foldRepeats_failshake (cfg : String) (sn : ℕ) (inputs : List String)
    (rf : String) (envs : List Env) (s s' : DrvState)
    (hz : s.jobHandle = 0)
    (hfail : ∀ e ∈ envs, e.handshake.status ≠ 0)
    (h : envs.foldlM (runRepeat cfg sn inputs true rf) s = Except.ok s') :
    s'.jobHandle = 0 ∧
    s'.sent = s.sent ++ (List.replicate envs.length
      [loadRequest cfg sn, runWithConfig cfg sn inputs]).flatten := by
  induction envs generalizing s with
  | nil =>
    rw [List.foldlM_nil] at h
    cases h
    simpa using hz
  | cons e envs ih =>
    rw [List.foldlM_cons] at h
    cases he : runRepeat cfg sn inputs true rf s e with
    | error err =>
      rw [he] at h
      exact absurd h (by simp [Bind.bind, Except.bind])
    | ok s1 =>
      rw [he] at h
      have h' : envs.foldlM (runRepeat cfg sn inputs true rf) s1
          = Except.ok s' := h
      obtain ⟨j1, j2⟩ := runRepeat_failshake cfg sn inputs rf s e s1 hz
        (hfail e (by simp)) he
      obtain ⟨i1, i2⟩ := ih s1 j1 (fun e' he' => hfail e' (by simp [he'])) h'
      refine ⟨i1, ?_⟩
      rw [i2, j2]
      simp [List.replicate_succ]

theorem forall2_frames (ds : List (DriverArgs × List Env))
    (ss : List DrvState)
    (hok : List.Forall₂ (fun d s => workload d.1 d.2 = Except.ok s) ds ss) :
    List.Forall₂ (fun d s => s.frameCnt = framesOf d.2) ds ss := by
  induction hok with
  | nil => exact List.Forall₂.nil
  | cons h hs ih => exact List.Forall₂.cons (workload_acc _ _ _ h).1 ih

theorem forall2_sum_frames (ds : List (DriverArgs × List Env))
    (ss : List DrvState)
    (hper : List.Forall₂ (fun d s => s.frameCnt = framesOf d.2) ds ss) :
    (ss.map DrvState.frameCnt).sum = (ds.map (fun d => framesOf d.2)).sum := by
  induction hper with
  | nil => rfl
  | cons h hs ih => simp [h, ih]

theorem forall2_latsum (ds : List (DriverArgs × List Env))
    (ss : List DrvState)
    (hok : List.Forall₂ (fun d s => workload d.1 d.2 = Except.ok s) ds ss) :
    (ss.map DrvState.latSum).sum
      = ((ds.map (fun d => latsOf d.2)).flatten).sum := by
  induction hok with
  | nil => rfl
  | cons h hs ih => simp [(workload_acc _ _ _ h).2.1, ih]

theorem forall2_latcnt (ds : List (DriverArgs × List Env))
    (ss : List DrvState)
    (hok : List.Forall₂ (fun d s => workload d.1 d.2 = Except.ok s) ds ss) :
    (ss.map DrvState.latCnt).sum
      = ((ds.map (fun d => latsOf d.2)).flatten).length := by
  induction hok with
  | nil => rfl
  | cons h hs ih => simp [(workload_acc _ _ _ h).2.2, ih]

/-! ### Claim theorems -/

/-- C4: finalize computes the mean per-thread elapsed time as the sum of
the per-thread elapsed times divided by the number of per-thread entries,
and the aggregate fps as
((totalFrames - pipelineRepeats) / totalStreams) / (meanElapsedMs / 1000);
in particular for totalFrames = 1000, pipelineRepeats = 5,
totalStreams = 4 and meanElapsedMs = 20000 the computed fps is 12.4375. -/
theorem finalize_fps_formula (gTotal : List ℚ) (gFrameCnt : List ℕ)
    (latSum : ℚ) (latCnt pr tsn : ℕ) :
    (finalize gTotal gFrameCnt latSum latCnt pr tsn).mean
      = gTotal.sum / (gTotal.length : ℚ) ∧
    (finalize gTotal gFrameCnt latSum latCnt pr tsn).fps
      = (((gFrameCnt.sum : ℚ) - (pr : ℚ)) / (tsn : ℚ)) /
        ((gTotal.sum / (gTotal.length : ℚ)) / 1000) ∧
    (finalize [20000] [1000] latSum latCnt 5 4).fps = 12.4375 := by
  refine ⟨?_, ?_, ?_⟩
  · simp [finalize, List.sum_eq_foldl]
  · simp [finalize, List.sum_eq_foldl]
  · norm_num [finalize]

/-- C7: with totalStreamNum at least crossStreamNum at least 1, the
orchestrator spawns exactly totalStreamNum / crossStreamNum primary-group
drivers, each with the primary configuration and crossStreamNum streams,
and exactly totalStreamNum % crossStreamNum secondary-group drivers, each
with the alternate configuration and 1 stream; for 10 and 4 this gives
2 primary and 2 secondary drivers; and when totalStreamNum is less than
crossStreamNum the program fails before spawning any driver. -/
theorem orchestrator_partition (tsn cs : ℕ) (_h1 : 1 ≤ cs) (h2 : cs ≤ tsn) :
    (∀ l, spawnPlan tsn cs = some l →
      l.countP (fun d => d.primaryCfg) = tsn / cs ∧
      l.countP (fun d => !d.primaryCfg) = tsn % cs ∧
      (∀ d ∈ l, d.primaryCfg = true → d.streamNum = cs) ∧
      (∀ d ∈ l, d.primaryCfg = false → d.streamNum = 1)) ∧
    spawnPlan tsn cs ≠ none ∧
    (∀ a b : ℕ, a < b → spawnPlan a b = none) ∧
    ((spawnPlan 10 4).map (fun l =>
      (l.countP (fun d => d.primaryCfg), l.countP (fun d => !d.primaryCfg)))
      = some (2, 2)) := by
  have hlt : ¬(tsn < cs) := not_lt.mpr h2
  refine ⟨?_, ?_, ?_, ?_⟩
  · intro l hl
    rw [spawnPlan, if_neg hlt] at hl
    cases hl
    refine ⟨?_, ?_, ?_, ?_⟩
    · simp [List.countP_append, List.countP_map, Function.comp_def,
        List.countP_true, List.countP_eq_length]
    · simp [List.countP_append, List.countP_map, Function.comp_def,
        List.countP_true, List.countP_eq_length]
    · intro d hd
      rcases List.mem_append.mp hd with hp | hp
      · obtain ⟨i, -, rfl⟩ := List.mem_map.mp hp
        intro; rfl
      · obtain ⟨i, -, rfl⟩ := List.mem_map.mp hp
        intro hcontra
        cases hcontra
    · intro d hd
      rcases List.mem_append.mp hd with hp | hp
      · obtain ⟨i, -, rfl⟩ := List.mem_map.mp hp
        intro hcontra
        cases hcontra
      · obtain ⟨i, -, rfl⟩ := List.mem_map.mp hp
        intro; rfl
  · rw [spawnPlan, if_neg hlt]
    simp
  · intro a b hab
    rw [spawnPlan, if_pos hab]
  · decide

/-- C1: the read loops update the shared latency accumulators
g_latency_sum and g_latency_count without holding g_mutex (the lock in
the loop body is acquired only after these updates), so the claimed
discipline that every mutation of shared aggregate state holds the mutex
is violated: an interleaving of two concurrent contributions with values
10 and 20 in which both threads load before either stores ends with
sum 20 and count 1, while the serialized schedule of the same
contributions (the result the claim requires for every interleaving)
ends with sum 30 and count 2. -/
theorem latency_race_lost_update :
    (runSched (⟨0, 0⟩, [{ v := 10 }, { v := 20 }]) [0,0,0,0,1,1,1,1]).1
      = ⟨30, 2⟩ ∧
    (runSched (⟨0, 0⟩, [{ v := 10 }, { v := 20 }]) [0,1,0,1,0,1,0,1]).1
      = ⟨20, 1⟩ ∧
    (runSched (⟨0, 0⟩, [{ v := 10 }, { v := 20 }]) [0,1,0,1,0,1,0,1]).1
      ≠ (runSched (⟨0, 0⟩, [{ v := 10 }, { v := 20 }]) [0,0,0,0,1,1,1,1]).1 := by
  refine ⟨?_, ?_, ?_⟩
  · norm_num [runSched, schedStep, raceStep]
  · norm_num [runSched, schedStep, raceStep]
  · norm_num [runSched, schedStep, raceStep, RaceShared.mk.injEq]

/-- C2: a Response whose message fails to decode does crash the read
loop, contrary to the claim: a status-0 reply with well-formed JSON but
no latency field makes the loop throw (missing latency), a status-0
reply with malformed JSON makes it throw at parse, and in a stream
containing such a reply the remaining Responses are never processed
(the whole workload call aborts instead of continuing). -/
theorem decode_failure_crashes :
    procLoopResp "r.json" {} ⟨0, Msg.fields none none none⟩
      = Except.error Crash.missingLatency ∧
    procLoopResp "r.json" {} ⟨0, Msg.malformed⟩
      = Except.error Crash.jsonParse ∧
    workload ⟨"cfg", [], 1, 0, 1, false, "r.json"⟩
      [⟨⟨0, Msg.malformed⟩,
        [⟨0, Msg.fields none none none⟩, ⟨0, Msg.fields none (some 5) none⟩]⟩]
      = Except.error Crash.missingLatency := by
  refine ⟨rfl, rfl, rfl⟩

/-- C8 counterexample: with warmup enabled and a first handshake Response
of non-zero status, the driver does send load_pipeline again in its next
repeat (requests go load, run, load, run), refuting the claim that the
handshake is never retried in the remaining repeats. -/
theorem handshake_retry_counterexample :
    (workload ⟨"cfg", [], 1, 0, 1, true, "r"⟩
      [⟨⟨1, Msg.fields none none none⟩, []⟩,
       ⟨⟨1, Msg.fields none none none⟩, []⟩]).map
        (fun s => s.sent.map Request.target)
      = Except.ok [Target.load_pipeline, Target.run,
                   Target.load_pipeline, Target.run] := by
  rfl

/-- C8 amended: if every handshake Response of a warmup-enabled driver
carries non-zero status, no handle is ever extracted (job_handle stays
0) and every repeat sends the load_pipeline handshake again followed by
a run Request carrying the full pipelineConfig with no jobHandle. -/
theorem handshake_failure_fallback (a : DriverArgs) (envs : List Env)
    (s : DrvState)
    (hwf : a.warmupFlag = true)
    (hfail : ∀ e ∈ envs, e.handshake.status ≠ 0)
    (hok : workload a envs = Except.ok s) :
    s.jobHandle = 0 ∧
    s.sent = (List.replicate envs.length
      [loadRequest a.cfg a.streamNum,
       runWithConfig a.cfg a.streamNum (inputsOf a)]).flatten := by
  rw [workload, hwf] at hok
  obtain ⟨i1, i2⟩ := foldRepeats_failshake a.cfg a.streamNum (inputsOf a)
    a.reportFileName envs {} s rfl hfail hok
  exact ⟨i1, by simpa using i2⟩

/-- C10: with the warmup flag false, a driver never sends a
load_pipeline Request, its job handle stays 0 for its whole lifetime,
and every Request it sends is a run Request carrying the full
pipelineConfig with jobHandle unset. -/
theorem no_warmup_requests (a : DriverArgs) (envs : List Env)
    (s : DrvState)
    (hwf : a.warmupFlag = false)
    (hok : workload a envs = Except.ok s) :
    s.jobHandle = 0 ∧
    s.sent = List.replicate envs.length
      (runWithConfig a.cfg a.streamNum (inputsOf a)) := by
  rw [workload, hwf] at hok
  obtain ⟨i1, i2⟩ := foldRepeats_nowarm a.cfg a.streamNum (inputsOf a)
    a.reportFileName envs {} s rfl hok
  exact ⟨i1, by simpa using i2⟩

/-- C3: once a warmup-enabled driver obtains a non-zero job handle from a
successful load_pipeline handshake Response, every subsequent run Request
of its remaining repeats (including the run Request of the repeat in
which the handle was obtained) is a run Request carrying that jobHandle
with pipelineConfig omitted, and no further load_pipeline is sent. -/
theorem handle_reuse (a : DriverArgs) (envs1 : List Env) (e : Env)
    (envs2 : List Env) (s0 s1 : DrvState) (ty : Option String)
    (lat : Option ℚ) (hdl : ℕ)
    (hwf : a.warmupFlag = true)
    (h0 : workload a envs1 = Except.ok s0)
    (hz : s0.jobHandle = 0)
    (hst : e.handshake.status = 0)
    (hm : e.handshake.msg = Msg.fields ty lat (some hdl))
    (hne : hdl ≠ 0)
    (h1 : workload a (envs1 ++ e :: envs2) = Except.ok s1) :
    s1.jobHandle = hdl ∧
    s1.sent.drop (s0.sent.length + 1) =
      runWithHandle a.streamNum (inputsOf a) hdl ::
        List.replicate envs2.length
          (runWithHandle a.streamNum (inputsOf a) hdl) ∧
    ∀ req ∈ s1.sent.drop (s0.sent.length + 1),
      req.target = Target.run ∧ req.jobHandle = some hdl ∧
      req.pipelineConfig = none := by
  rw [workload, List.foldlM_append] at h1
  rw [workload] at h0
  rw [h0] at h1
  have h1' : (e :: envs2).foldlM
      (runRepeat a.cfg a.streamNum (inputsOf a) a.warmupFlag
        a.reportFileName) s0 = Except.ok s1 := h1
  rw [hwf, List.foldlM_cons] at h1'
  cases he : runRepeat a.cfg a.streamNum (inputsOf a) true
      a.reportFileName s0 e with
  | error err =>
    rw [he] at h1'
    exact absurd h1' (by simp [Bind.bind, Except.bind])
  | ok s2 =>
    rw [he] at h1'
    have h2 : envs2.foldlM (runRepeat a.cfg a.streamNum (inputsOf a) true
        a.reportFileName) s2 = Except.ok s1 := h1'
    obtain ⟨j1, j2⟩ := runRepeat_okshake a.cfg a.streamNum (inputsOf a)
      a.reportFileName s0 e s2 ty lat hdl hz hst hm he
    have hpos : s2.jobHandle ≠ 0 := by rw [j1]; exact hne
    obtain ⟨i1, i2⟩ := foldRepeats_held a.cfg a.streamNum (inputsOf a) true
      a.reportFileName envs2 s2 s1 hpos h2
    have hjob : s1.jobHandle = hdl := by rw [i1, j1]
    have hdrop : s1.sent.drop (s0.sent.length + 1) =
        runWithHandle a.streamNum (inputsOf a) hdl ::
          List.replicate envs2.length
            (runWithHandle a.streamNum (inputsOf a) hdl) := by
      rw [i2, j2, j1, runRequest_pos _ _ _ _ hne]
      rw [show s0.sent ++ [loadRequest a.cfg a.streamNum,
            runWithHandle a.streamNum (inputsOf a) hdl]
          = (s0.sent ++ [loadRequest a.cfg a.streamNum]) ++
            [runWithHandle a.streamNum (inputsOf a) hdl] by simp]
      rw [List.append_assoc]
      rw [show s0.sent.length + 1
          = (s0.sent ++ [loadRequest a.cfg a.streamNum]).length + 0 by simp]
      rw [List.drop_append]
      simp
    refine ⟨hjob, hdrop, ?_⟩
    intro req hreq
    rw [hdrop] at hreq
    rcases List.mem_cons.mp hreq with rfl | hmem
    · exact ⟨rfl, rfl, rfl⟩
    · rcases (List.mem_replicate.mp hmem).2 with rfl
      exact ⟨rfl, rfl, rfl⟩

/-- C5: for a run with at least one driver and at least one repeat per
driver, the total frame count computed at finalize equals the sum of the
per-driver frame counts published into the aggregator, and each driver's
published frame count equals the number of Responses its read loops
consumed across all its repeats, performance-summary Responses excluded
and non-zero-status Responses included. -/
theorem total_frame_count (ds : List (DriverArgs × List Env))
    (ss : List DrvState)
    (_hne : ds ≠ []) (_hrep : ∀ d ∈ ds, d.2 ≠ [])
    (hok : List.Forall₂ (fun d s => workload d.1 d.2 = Except.ok s) ds ss)
    (gTotal : List ℚ) (latSum : ℚ) (latCnt pr tsn : ℕ) :
    (finalize gTotal (ss.map DrvState.frameCnt) latSum latCnt pr
        tsn).totalFrames
      = (ds.map (fun d => framesOf d.2)).sum ∧
    List.Forall₂ (fun d s => s.frameCnt = framesOf d.2) ds ss := by
  have hper := forall2_frames ds ss hok
  have hsum := forall2_sum_frames ds ss hper
  exact ⟨by simp [finalize, ← List.sum_eq_foldl, hsum], hper⟩

/-- C6: the average latency computed at finalize equals the sum of the
latency contributions divided by their count, where the contributing set
is exactly the Responses with status 0 that are not performance-summary
Responses and that carry a decodable latency field (the latencyOf
filter); non-zero-status Responses and performance-summary Responses
contribute neither to the sum nor to the count. -/
theorem latency_mean_exact (ds : List (DriverArgs × List Env))
    (ss : List DrvState)
    (hok : List.Forall₂ (fun d s => workload d.1 d.2 = Except.ok s) ds ss)
    (gTotal : List ℚ) (gFrameCnt : List ℕ) (pr tsn : ℕ) :
    (ss.map DrvState.latSum).sum
      = ((ds.map (fun d => latsOf d.2)).flatten).sum ∧
    ((ss.map DrvState.latCnt).sum
      = ((ds.map (fun d => latsOf d.2)).flatten).length) ∧
    (finalize gTotal gFrameCnt (ss.map DrvState.latSum).sum
        (ss.map DrvState.latCnt).sum pr tsn).latencyAve
      = ((ds.map (fun d => latsOf d.2)).flatten).sum /
        ((((ds.map (fun d => latsOf d.2)).flatten).length : ℚ)) := by
  have h1 := forall2_latsum ds ss hok
  have h2 := forall2_latcnt ds ss hok
  exact ⟨h1, h2, by simp [finalize, h1, h2]⟩

/-! ### Decimal report-name facts for the amended C9 -/

theorem digitChar_inj_lt : ∀ a < 10, ∀ b < 10,
    Nat.digitChar a = Nat.digitChar b → a = b := by decide

theorem digitChar_isDigit : ∀ a < 10, (Nat.digitChar a).isDigit = true := by
  decide

theorem map_digitChar_inj (l1 : List ℕ) : ∀ (l2 : List ℕ),
    (∀ d ∈ l1, d < 10) → (∀ d ∈ l2, d < 10) →
    l1.map Nat.digitChar = l2.map Nat.digitChar → l1 = l2 := by
  induction l1 with
  | nil =>
    intro l2 _ _ h
    cases l2 with
    | nil => rfl
    | cons b bs => simp at h
  | cons a as ih =>
    intro l2 hb1 hb2 h
    cases l2 with
    | nil => simp at h
    | cons b bs =>
      simp only [List.map_cons, List.cons.injEq] at h
      obtain ⟨hab, hrest⟩ := h
      have hA : a < 10 := hb1 a (by simp)
      have hB : b < 10 := hb2 b (by simp)
      cases digitChar_inj_lt a hA b hB hab
      have htl := ih bs (fun d hd => hb1 d (by simp [hd]))
        (fun d hd => hb2 d (by simp [hd])) hrest
      rw [htl]

theorem decStr_data_of_ne (n : ℕ) (h : n ≠ 0) :
    (decStr n).data = ((Nat.digits 10 n).reverse).map Nat.digitChar := by
  unfold decStr
  rw [if_neg h]

theorem decStr_digits_bound (n : ℕ) :
    ∀ c ∈ (decStr n).data, c.isDigit = true := by
  by_cases h : n = 0
  · subst h
    intro c hc
    rw [show (decStr 0).data = [('0' : Char)] from rfl] at hc
    simp at hc
    subst hc
    decide
  · rw [decStr_data_of_ne n h]
    intro c hc
    obtain ⟨d, hd, rfl⟩ := List.mem_map.mp hc
    exact digitChar_isDigit d
      (Nat.digits_lt_base (by norm_num) (List.mem_reverse.mp hd))

theorem decStr_data_eq_zero_str (n : ℕ)
    (h : (decStr n).data = [('0' : Char)]) : n = 0 := by
  by_contra hn
  rw [decStr_data_of_ne n hn] at h
  have h1 : ((Nat.digits 10 n).reverse).map Nat.digitChar
      = ([0] : List ℕ).map Nat.digitChar := by
    rw [h]; rfl
  have h2 := map_digitChar_inj _ [0]
    (fun d hd => Nat.digits_lt_base (by norm_num) (List.mem_reverse.mp hd))
    (by simp) h1
  have h3 : Nat.digits 10 n = [0] := by
    simpa using congrArg List.reverse h2
  have h4 := Nat.ofDigits_digits 10 n
  rw [h3] at h4
  simp [Nat.ofDigits] at h4
  exact hn h4.symm

theorem decStr_data_inj (m n : ℕ)
    (h : (decStr m).data = (decStr n).data) : m = n := by
  by_cases hm : m = 0 <;> by_cases hn : n = 0
  · rw [hm, hn]
  · exfalso
    subst hm
    exact hn (decStr_data_eq_zero_str n (by
      rw [← h]; rfl))
  · exfalso
    subst hn
    exact hm (decStr_data_eq_zero_str m (by rw [h]; rfl))
  · rw [decStr_data_of_ne m hm, decStr_data_of_ne n hn] at h
    have h2 := map_digitChar_inj _ _
      (fun d hd => Nat.digits_lt_base (by norm_num) (List.mem_reverse.mp hd))
      (fun d hd => Nat.digits_lt_base (by norm_num) (List.mem_reverse.mp hd))
      h
    have h3 : Nat.digits 10 m = Nat.digits 10 n := by
      have := congrArg List.reverse h2
      simpa using this
    exact Nat.digits.injective 10 h3

theorem decStr_data_ne_nil (n : ℕ) : (decStr n).data ≠ [] := by
  by_cases h : n = 0
  · subst h
    intro hc
    exact absurd (congrArg List.length hc) (by decide)
  · rw [decStr_data_of_ne n h]
    simp [List.map_eq_nil_iff, List.reverse_eq_nil_iff,
      Nat.digits_ne_nil_iff_ne_zero.mpr h]

theorem reportName_data (i : ℕ) :
    (reportName i).data
      = "performance_data_".data ++ ((decStr i).data ++ ".json".data) := by
  rw [reportName, String.data_append, String.data_append, List.append_assoc]

theorem reportName_inj (i j : ℕ) (h : reportName i = reportName j) : i = j := by
  have hd := congrArg String.data h
  rw [reportName_data, reportName_data] at hd
  have h2 := List.append_cancel_left hd
  have h3 := List.append_cancel_right h2
  exact decStr_data_inj i j h3

theorem reportName_ne_additional (i : ℕ) :
    reportName i ≠ "performance_data_additional.json" := by
  intro h
  have hd := congrArg String.data h
  rw [reportName_data] at hd
  rw [show ("performance_data_additional.json").data
      = "performance_data_".data ++ "additional.json".data from rfl] at hd
  have h2 := List.append_cancel_left hd
  cases hct : (decStr i).data with
  | nil => exact decStr_data_ne_nil i hct
  | cons c t =>
    rw [hct, List.cons_append] at h2
    rw [show ("additional.json").data
        = ('a' : Char) :: "dditional.json".data from rfl] at h2
    have hc : c = 'a' := by
      injection h2 with hc ht
    have hdig : c.isDigit = true :=
      decStr_digits_bound i c (by rw [hct]; simp)
    rw [hc] at hdig
    exact absurd hdig (by decide)

/-- C9 amended: among the drivers spawned in one run, any two distinct
drivers at least one of which belongs to the primary group have distinct
report file names (primary names are determined injectively by thread
index); but every secondary-group driver is assigned the one fixed name
performance_data_additional.json, so two distinct secondary drivers
(present whenever totalStreamNum % crossStreamNum is at least 2) write
the same report file. -/
theorem report_names_amended (tsn cs : ℕ) (_h1 : 1 ≤ cs) (h2 : cs ≤ tsn)
    (l : List DriverSpec) (hl : spawnPlan tsn cs = some l) :
    (∀ d1 ∈ l, ∀ d2 ∈ l, d1 ≠ d2 →
      (d1.primaryCfg = true ∨ d2.primaryCfg = true) →
      d1.reportFileName ≠ d2.reportFileName) ∧
    (∀ d ∈ l, d.primaryCfg = false →
      d.reportFileName = "performance_data_additional.json") := by
  have hlt : ¬(tsn < cs) := not_lt.mpr h2
  rw [spawnPlan, if_neg hlt] at hl
  cases hl
  constructor
  · rintro d1 hd1 d2 hd2 hne hprim
    rcases List.mem_append.mp hd1 with hp1 | hp1
    · obtain ⟨i, -, rfl⟩ := List.mem_map.mp hp1
      rcases List.mem_append.mp hd2 with hp2 | hp2
      · obtain ⟨j, -, rfl⟩ := List.mem_map.mp hp2
        intro hnm
        apply hne
        cases reportName_inj i j hnm
        rfl
      · obtain ⟨j, -, rfl⟩ := List.mem_map.mp hp2
        exact fun h => reportName_ne_additional i h
    · obtain ⟨i, -, rfl⟩ := List.mem_map.mp hp1
      rcases List.mem_append.mp hd2 with hp2 | hp2
      · obtain ⟨j, -, rfl⟩ := List.mem_map.mp hp2
        exact fun h => reportName_ne_additional j h.symm
      · obtain ⟨j, -, rfl⟩ := List.mem_map.mp hp2
        rcases hprim with h | h <;> exact absurd h (by simp)
  · intro d hd hfalse
    rcases List.mem_append.mp hd with hp | hp
    · obtain ⟨i, -, rfl⟩ := List.mem_map.mp hp
      exact absurd hfalse (by simp)
    · obtain ⟨i, -, rfl⟩ := List.mem_map.mp hp
      rfl

/-- C9 counterexample: in the 10-stream, 4-cross-stream run the spawn
list has 4 drivers and the two secondary drivers (positions 2 and 3,
distinct thread indices 0 and 1) are assigned the same report file name,
so the claimed pairwise distinctness of report file names fails. -/
theorem report_name_clash_counterexample :
    ((spawnPlan 10 4).getD []).length = 4 ∧
    (((spawnPlan 10 4).getD [])[2]?).map DriverSpec.reportFileName
      = some "performance_data_additional.json" ∧
    (((spawnPlan 10 4).getD [])[3]?).map DriverSpec.reportFileName
      = some "performance_data_additional.json" ∧
    (((spawnPlan 10 4).getD [])[2]?).map DriverSpec.threadId = some 0 ∧
    (((spawnPlan 10 4).getD [])[3]?).map DriverSpec.threadId = some 1 := by
  refine ⟨rfl, rfl, rfl, rfl, rfl⟩

/-! ### Witnesses -/

/-- Witness for the C3 theorem at a concrete driver run. -/
theorem handle_reuse_witness :
    (42 : ℕ) ≠ 0 ∧
    (wReuseState.jobHandle = 42 ∧
     wReuseState.sent.drop 1 =
       runWithHandle 1 ["m"] 42 ::
         List.replicate 1 (runWithHandle 1 ["m"] 42) ∧
     ∀ req ∈ wReuseState.sent.drop 1,
       req.target = Target.run ∧ req.jobHandle = some 42 ∧
       req.pipelineConfig = none) :=
  ⟨by decide,
   handle_reuse wArgs [] wEnvHandle [wEnvSecond] {} wReuseState none none 42
     rfl rfl rfl rfl rfl (by decide) rfl⟩

/-- Witness for the C5 theorem at a concrete one-driver run. -/
theorem total_frame_count_witness :
    ([wDrv] ≠ ([] : List (DriverArgs × List Env))) ∧
    (∀ d ∈ [wDrv], d.2 ≠ ([] : List Env)) ∧
    ((finalize [100] ([wDrvState].map DrvState.frameCnt) 5 1 1 1).totalFrames
        = ([wDrv].map (fun d => framesOf d.2)).sum ∧
     List.Forall₂ (fun d s => s.frameCnt = framesOf d.2) [wDrv] [wDrvState]) := by
  have hok : List.Forall₂ (fun d s => workload d.1 d.2 = Except.ok s)
      [wDrv] [wDrvState] := by
    refine List.Forall₂.cons ?_ List.Forall₂.nil
    norm_num +decide [wDrv, wDrvState, workload, runRepeat, procLoopResp,
      procHandshake, runRequest, inputsOf, runWithConfig,
      Bind.bind, Except.bind, Pure.pure, Except.pure]
  exact ⟨by simp [wDrv], by simp [wDrv],
    total_frame_count [wDrv] [wDrvState] (by simp [wDrv]) (by simp [wDrv])
      hok [100] 5 1 1 1⟩

/-- Witness for the C6 theorem at a concrete one-driver run. -/
theorem latency_mean_exact_witness :
    List.Forall₂ (fun d s => workload d.1 d.2 = Except.ok s)
      [wDrv] [wDrvState] ∧
    (([wDrvState].map DrvState.latSum).sum
        = (([wDrv].map (fun d => latsOf d.2)).flatten).sum ∧
     (([wDrvState].map DrvState.latCnt).sum
        = (([wDrv].map (fun d => latsOf d.2)).flatten).length) ∧
     (finalize [100] [2] ([wDrvState].map DrvState.latSum).sum
         ([wDrvState].map DrvState.latCnt).sum 1 1).latencyAve
       = (([wDrv].map (fun d => latsOf d.2)).flatten).sum /
         (((([wDrv].map (fun d => latsOf d.2)).flatten).length : ℚ))) := by
  have hok : List.Forall₂ (fun d s => workload d.1 d.2 = Except.ok s)
      [wDrv] [wDrvState] := by
    refine List.Forall₂.cons ?_ List.Forall₂.nil
    norm_num +decide [wDrv, wDrvState, workload, runRepeat, procLoopResp,
      procHandshake, runRequest, inputsOf, runWithConfig,
      Bind.bind, Except.bind, Pure.pure, Except.pure]
  exact ⟨hok, latency_mean_exact [wDrv] [wDrvState] hok [100] [2] 1 1⟩

/-- Witness for the C7 theorem at totalStreamNum 10, crossStreamNum 4. -/
theorem orchestrator_partition_witness :
    (1 ≤ 4) ∧ (4 ≤ 10) ∧
    ((∀ l, spawnPlan 10 4 = some l →
      l.countP (fun d => d.primaryCfg) = 10 / 4 ∧
      l.countP (fun d => !d.primaryCfg) = 10 % 4 ∧
      (∀ d ∈ l, d.primaryCfg = true → d.streamNum = 4) ∧
      (∀ d ∈ l, d.primaryCfg = false → d.streamNum = 1)) ∧
    spawnPlan 10 4 ≠ none ∧
    (∀ a b : ℕ, a < b → spawnPlan a b = none) ∧
    ((spawnPlan 10 4).map (fun l =>
      (l.countP (fun d => d.primaryCfg), l.countP (fun d => !d.primaryCfg)))
      = some (2, 2))) :=
  ⟨by decide, by decide, orchestrator_partition 10 4 (by decide) (by decide)⟩

/-- Witness for the C8 amended theorem at a concrete driver run whose
handshake fails. -/
theorem handshake_failure_fallback_witness :
    (∀ e ∈ wEnvsFail, e.handshake.status ≠ 0) ∧
    (wFailState.jobHandle = 0 ∧
     wFailState.sent = (List.replicate wEnvsFail.length
       [loadRequest "cfg" 1,
        runWithConfig "cfg" 1 (inputsOf wArgs)]).flatten) :=
  ⟨by decide,
   handshake_failure_fallback wArgs wEnvsFail wFailState rfl (by decide) rfl⟩

/-- Witness for the C9 amended theorem at totalStreamNum 10,
crossStreamNum 4. -/
theorem report_names_amended_witness :
    (1 ≤ 4) ∧ (4 ≤ 10) ∧
    spawnPlan 10 4 = some ((spawnPlan 10 4).getD []) ∧
    ((∀ d1 ∈ (spawnPlan 10 4).getD [], ∀ d2 ∈ (spawnPlan 10 4).getD [],
        d1 ≠ d2 → (d1.primaryCfg = true ∨ d2.primaryCfg = true) →
        d1.reportFileName ≠ d2.reportFileName) ∧
     (∀ d ∈ (spawnPlan 10 4).getD [], d.primaryCfg = false →
        d.reportFileName = "performance_data_additional.json")) :=
  ⟨by decide, by decide, rfl,
   report_names_amended 10 4 (by decide) (by decide) _ rfl⟩

/-- Witness for the C10 theorem at a concrete no-warmup driver run. -/
theorem no_warmup_requests_witness :
    workload wArgsNoWarm wEnvsNoWarm = Except.ok wNoWarmState ∧
    (wNoWarmState.jobHandle = 0 ∧
     wNoWarmState.sent = List.replicate wEnvsNoWarm.length
       (runWithConfig "cfg" 1 (inputsOf wArgsNoWarm))) :=
  ⟨rfl, no_warmup_requests wArgsNoWarm wEnvsNoWarm wNoWarmState rfl rfl⟩

end CrossStream
